import Mathlib

/-!
# Verification of `src/monitor/archiver_metadata.c` (pg_auto_failover)

Shallow embedding of the archiver metadata repository: the persistent
`pgautofailover.archiver` table together with its `nodeid` sequence is modelled
as an explicit store, the SPI query executor as pure functions on that store
(with a boolean `execFails` input standing for an execution failure of the
underlying statement such as the store being unreachable), and PostgreSQL
error raising (`elog(ERROR)` / `ereport(ERROR)`) as `Except.error`.

Machine integers: `nodeid` is a `bigint` column backed by a `bigint` sequence,
modelled as `Int`.  The C code converts some datums through 32-bit macros
(`DatumGetInt32`, `Int32GetDatum` together with `INT4OID`); that conversion is
modelled by `toInt32`, truncation of an integer to its low 32 bits interpreted
as a signed value.

An `elog(ERROR)` performs a non-local exit; PostgreSQL then aborts the current
transaction, which rolls back the effects of the failed statement and releases
all SPI connections of the transaction (`AtEOXact_SPI`).  Accordingly every
error exit of an operation leaves the store as it was before the operation and
sets the count of held SPI sessions to zero.
-/

set_option autoImplicit false

namespace ArchiverMetadata

/-- `DatumGetInt32` applied to a 64-bit value: keep the low 32 bits and
interpret them as a signed 32-bit integer. -/
def toInt32 (z : Int) : Int :=
  (z + 2147483648) % 4294967296 - 2147483648

/-- The in-memory archiver record (`AutoFailoverArchiver`).  `GetArchiver`
fills `nodeId` with `DatumGetInt64`, so the field holds a full 64-bit value. -/
structure AutoFailoverArchiver where
  nodeId : Int
  nodeName : String
  nodeHost : String
  deriving DecidableEq, Repr

/-- One row of the `pgautofailover.archiver` table: columns `nodeid`
(`bigint`, sequence-backed), `nodename` (`text`), `nodehost` (`text`). -/
structure ArchiverRow where
  nodeid : Int
  nodename : String
  nodehost : String
  deriving DecidableEq, Repr

/-- The persistent state this file's statements touch: the archiver table's
rows and the next value of `pgautofailover.archiver_nodeid_seq`. -/
structure MonitorStore where
  rows : List ArchiverRow
  nextSeq : Int
  deriving DecidableEq, Repr

/-- The world seen by one repository operation: the store plus the number of
SPI sessions currently held (`SPI_connect` increments, `SPI_finish`
decrements, transaction abort resets to zero). -/
structure SpiWorld where
  store : MonitorStore
  spiConnected : Nat
  deriving DecidableEq, Repr

/-- Error taxonomy of the spec: `repositoryError` for `elog(ERROR, "could not
...")` on a failed statement, `invalidArgument` for the
`ERRCODE_INVALID_PARAMETER_VALUE` report on a NULL archiver, `schemaMismatch`
for the "return type must be a row type" report. -/
inductive PgError where
  | repositoryError
  | invalidArgument
  | schemaMismatch
  deriving DecidableEq, Repr

/-- Result classes of `get_call_result_type` (`TypeFuncClass` in PostgreSQL). -/
inductive TypeFuncClass where
  | scalar
  | composite
  | compositeDomain
  | record
  | other
  deriving DecidableEq, Repr

/-- SPI status codes that the three statements of this file can observe. -/
inductive SpiStatus where
  | okSelect
  | okInsertReturning
  | okDelete
  | failed
  deriving DecidableEq, Repr

/-- `GetArchiver` (archiver_metadata.c lines 43-106).  `SPI_connect`; execute
`SELECT * FROM pgautofailover.archiver WHERE nodeId = $1` with row limit 1; on
a non-`SPI_OK_SELECT` status, `elog(ERROR, ...)` (transaction abort); if a row
was returned, copy it into a fresh `AutoFailoverArchiver` in the caller's
memory context (`DatumGetInt64` on `nodeid`); otherwise return `NULL`;
`SPI_finish`.  The C parameter is a C `int`, so `nodeId` here ranges over
signed 32-bit values, sign-extended into the `int8` comparison. -/
def GetArchiver (execFails : Bool) (w : SpiWorld) (nodeId : Int) :
    Except PgError (Option AutoFailoverArchiver) × SpiWorld :=
  let connected := w.spiConnected + 1
  if execFails then
    (Except.error PgError.repositoryError, ⟨w.store, 0⟩)
  else
    let found := (w.store.rows.filter (fun r => r.nodeid == nodeId)).take 1
    let archiver :=
      match found with
      | [] => none
      | r :: _ => some ⟨r.nodeid, r.nodename, r.nodehost⟩
    (Except.ok archiver, ⟨w.store, connected - 1⟩)

/-- The `case when $1 is null then format(archiver_%s, seq.nodeid) else $1
end` expression of the insert statement: the stored node name, resolved
server-side inside the insert from the sequence value `seq` allocated by that
same statement. -/
def defaultedName (nodeName : Option String) (seq : Int) : String :=
  match nodeName with
  | none => "archiver_" ++ toString seq
  | some n => n

/-- The single insert statement of `AddArchiver` (lines 140-155):
`WITH seq(nodeid) AS (SELECT nextval(pgautofailover.archiver_nodeid_seq))
INSERT INTO pgautofailover.archiver (nodename, nodehost)
SELECT case when $1 is null then format(archiver_%s, seq.nodeid) else $1 end,
$2 FROM seq RETURNING nodeid`.
The sequence value and the defaulted name are computed inside this one
statement.  An absent `$2` violates the constraints on the host column and the
statement fails; a failed statement leaves the store unchanged.  Returns the
SPI status, the `RETURNING nodeid` values, and the resulting store. -/
def runInsertStatement (execFails : Bool) (st : MonitorStore)
    (nodeName : Option String) (nodeHost : Option String) :
    SpiStatus × List Int × MonitorStore :=
  match nodeHost with
  | none => (SpiStatus.failed, [], st)
  | some host =>
    if execFails then
      (SpiStatus.failed, [], st)
    else
      let seq := st.nextSeq
      (SpiStatus.okInsertReturning, [seq],
        ⟨st.rows ++ [⟨seq, defaultedName nodeName seq, host⟩], seq + 1⟩)

/-- The result handling of `AddArchiver` (lines 157-171): if the status is
`SPI_OK_INSERT_RETURNING` and `SPI_processed > 0`, read the returned `nodeid`
with `SPI_getbinval` and convert it with `DatumGetInt32` into the C `int`
local `nodeId`; otherwise `elog(ERROR, "could not insert ...")`. -/
def addArchiverHandleSpi (spiStatus : SpiStatus) (returnedIds : List Int) :
    Except PgError Int :=
  match spiStatus, returnedIds with
  | SpiStatus.okInsertReturning, nid :: _ => Except.ok (toInt32 nid)
  | _, _ => Except.error PgError.repositoryError

/-- `AddArchiver` (lines 116-176): `SPI_connect`; run the single insert
statement; on success return the (32-bit converted) returned `nodeid` after
`SPI_finish`; otherwise `elog(ERROR)`, aborting the transaction (statement
effects rolled back, SPI sessions released). -/
def AddArchiver (execFails : Bool) (w : SpiWorld)
    (nodeName : Option String) (nodeHost : Option String) :
    Except PgError Int × SpiWorld :=
  let connected := w.spiConnected + 1
  let out := runInsertStatement execFails w.store nodeName nodeHost
  match addArchiverHandleSpi out.1 out.2.1 with
  | Except.ok nid => (Except.ok nid, ⟨out.2.2, connected - 1⟩)
  | Except.error e => (Except.error e, ⟨w.store, 0⟩)

/-- `RemoveArchiver` (lines 184-212): `SPI_connect`; execute `DELETE FROM
pgautofailover.archiver WHERE nodeid = $1` with `$1` passed as `INT4OID` via
`Int32GetDatum(archiver->nodeId)` — the 64-bit field reduced to its signed
32-bit value; on a non-`SPI_OK_DELETE` status `elog(ERROR, ...)`; else
`SPI_finish`.  The affected-row count is never read. -/
def RemoveArchiver (execFails : Bool) (w : SpiWorld)
    (archiver : AutoFailoverArchiver) :
    Except PgError Unit × SpiWorld :=
  let connected := w.spiConnected + 1
  if execFails then
    (Except.error PgError.repositoryError, ⟨w.store, 0⟩)
  else
    let remaining :=
      w.store.rows.filter (fun r => !(r.nodeid == toInt32 archiver.nodeId))
    (Except.ok (), ⟨⟨remaining, w.store.nextSeq⟩, connected - 1⟩)

/-- A heap tuple as formed by `heap_form_tuple`: each field is a datum paired
with its null flag. -/
inductive PgDatum where
  | intDatum (n : Int)
  | textDatum (s : String)
  deriving DecidableEq, Repr

/-- `AutoFailoverArchiverGetDatum` (lines 220-255): report
`invalidArgument` when `archiver` is `NULL` (checked first); fill
`values[0..2]` with `Int32GetDatum(nodeId)` (an `INT4OID`-typed datum, the
signed 32-bit reduction of the field), the name and the host, all null flags
`false`; then check `get_call_result_type` and report `schemaMismatch` unless
the result class is `TYPEFUNC_COMPOSITE`; finally form the 3-field tuple. -/
def AutoFailoverArchiverGetDatum (archiver : Option AutoFailoverArchiver)
    (resultTypeClass : TypeFuncClass) :
    Except PgError (List (PgDatum × Bool)) :=
  match archiver with
  | none => Except.error PgError.invalidArgument
  | some a =>
    let values := [PgDatum.intDatum (toInt32 a.nodeId),
                   PgDatum.textDatum a.nodeName,
                   PgDatum.textDatum a.nodeHost]
    let isNulls := [false, false, false]
    if resultTypeClass = TypeFuncClass.composite then
      Except.ok (values.zip isNulls)
    else
      Except.error PgError.schemaMismatch

/-! ## Helper lemmas -/

theorem toInt32_eq_self {z : Int} (hlo : -2147483648 ≤ z) (hhi : z < 2147483648) :
    toInt32 z = z := by
  unfold toInt32
  omega

theorem addArchiver_ok_eq (w : SpiWorld) (nodeName : Option String) (host : String) :
    AddArchiver false w nodeName (some host) =
      (Except.ok (toInt32 w.store.nextSeq),
        ⟨⟨w.store.rows ++
            [⟨w.store.nextSeq, defaultedName nodeName w.store.nextSeq, host⟩],
          w.store.nextSeq + 1⟩, w.spiConnected⟩) := rfl

theorem getArchiver_ok_eq (w : SpiWorld) (nodeId : Int) :
    GetArchiver false w nodeId =
      (Except.ok
        (match (w.store.rows.filter (fun r => r.nodeid == nodeId)).take 1 with
         | [] => none
         | r :: _ => some ⟨r.nodeid, r.nodename, r.nodehost⟩),
       ⟨w.store, w.spiConnected⟩) := rfl

/-! ## Claims -/

/-- C1: for every call of `AddArchiver` with an absent `nodeName` and a
present `nodeHost`, the single insert statement both allocates the identifier
(the store's `nextSeq`, which it advances) and computes the stored name, and
the stored `nodename` equals `"archiver_"` followed by the `nodeid` of the
very row this insert created — never a stale or differently allocated
identifier. -/
theorem addArchiver_autoname_uses_allocated_id
    (w : SpiWorld) (host : String) :
    ∃ row : ArchiverRow,
      (AddArchiver false w none (some host)).2.store.rows =
        w.store.rows ++ [row] ∧
      row.nodeid = w.store.nextSeq ∧
      (AddArchiver false w none (some host)).2.store.nextSeq =
        w.store.nextSeq + 1 ∧
      row.nodename = "archiver_" ++ toString row.nodeid ∧
      row.nodehost = host := by
  exact ⟨⟨w.store.nextSeq, "archiver_" ++ toString w.store.nextSeq, host⟩,
    rfl, rfl, rfl, rfl, rfl⟩

/-- C2 counterexample: with the sequence at 2147483648 = 2^31, `AddArchiver`
succeeds but hands back `DatumGetInt32` of the allocated `bigint`, namely
-2147483648, and `GetArchiver` on that returned identifier finds no row — the
claimed Add-then-Get round trip yields absent, not a present record. -/
theorem addArchiver_then_getArchiver_cex :
    (AddArchiver false ⟨⟨[], 2147483648⟩, 0⟩ none (some "10.0.0.5:5432")).1 =
      Except.ok (-2147483648) ∧
    (GetArchiver false
        (AddArchiver false ⟨⟨[], 2147483648⟩, 0⟩ none (some "10.0.0.5:5432")).2
        (-2147483648)).1 =
      Except.ok none := by
  constructor
  · rfl
  · rfl

/-- C2 (amended): for every valid pair `(nodeName, nodeHost)`, provided the
identifier the insert allocates fits in the signed 32-bit range (the code
routes it through a C `int` and `DatumGetInt32`) and is not already used by a
row, `AddArchiver` followed by `GetArchiver` on the returned `nodeId` yields a
present record whose `nodeHost` equals the supplied host and whose `nodeName`
equals the supplied name when one was given, or `"archiver_"` + the returned
`nodeId` when `nodeName` was omitted. -/
theorem addArchiver_then_getArchiver
    (w : SpiWorld) (nodeName : Option String) (host : String)
    (hlo : 0 ≤ w.store.nextSeq) (hhi : w.store.nextSeq < 2147483648)
    (hfresh : ∀ r ∈ w.store.rows, r.nodeid ≠ w.store.nextSeq) :
    ∃ nid : Int,
      (AddArchiver false w nodeName (some host)).1 = Except.ok nid ∧
      (GetArchiver false (AddArchiver false w nodeName (some host)).2 nid).1 =
        Except.ok (some ⟨nid, defaultedName nodeName nid, host⟩) := by
  have hid : toInt32 w.store.nextSeq = w.store.nextSeq :=
    toInt32_eq_self (by omega) hhi
  refine ⟨w.store.nextSeq, ?_, ?_⟩
  · rw [addArchiver_ok_eq, hid]
  · rw [addArchiver_ok_eq, hid, getArchiver_ok_eq]
    have hnil :
        w.store.rows.filter (fun r => r.nodeid == w.store.nextSeq) = [] := by
      rw [List.filter_eq_nil_iff]
      intro r hr
      simpa using hfresh r hr
    simp [List.filter_append, hnil]

/-- C2 witness: the amended round trip at a concrete world (empty table,
sequence at 1) and host 10.0.0.5:5432 with `nodeName` omitted. -/
theorem addArchiver_then_getArchiver_witness :
    ∃ nid : Int,
      (AddArchiver false ⟨⟨[], 1⟩, 0⟩ none (some "10.0.0.5:5432")).1 =
        Except.ok nid ∧
      (GetArchiver false
          (AddArchiver false ⟨⟨[], 1⟩, 0⟩ none (some "10.0.0.5:5432")).2 nid).1 =
        Except.ok (some ⟨nid, defaultedName none nid, "10.0.0.5:5432"⟩) :=
  addArchiver_then_getArchiver ⟨⟨[], 1⟩, 0⟩ none "10.0.0.5:5432"
    (by decide) (by decide) (by simp)

/-- C3: for every `nodeId` with no matching row, `GetArchiver` returns the
explicit absent value without raising; and it raises `RepositoryError`
exactly when the underlying select statement itself fails to execute. -/
theorem getArchiver_absent_ok_and_error_iff_exec_failure :
    (∀ (w : SpiWorld) (nodeId : Int),
      (∀ r ∈ w.store.rows, r.nodeid ≠ nodeId) →
      (GetArchiver false w nodeId).1 = Except.ok none) ∧
    (∀ (execFails : Bool) (w : SpiWorld) (nodeId : Int),
      (GetArchiver execFails w nodeId).1 =
          Except.error PgError.repositoryError ↔
        execFails = true) := by
  constructor
  · intro w nodeId habsent
    rw [getArchiver_ok_eq]
    have hnil : w.store.rows.filter (fun r => r.nodeid == nodeId) = [] := by
      rw [List.filter_eq_nil_iff]
      intro r hr
      simpa using habsent r hr
    simp [hnil]
  · intro execFails w nodeId
    cases execFails
    · rw [getArchiver_ok_eq]
      simp
    · simp [GetArchiver]

/-- C3 witness: on an empty store, `GetArchiver` of identifier 7 returns the
absent value. -/
theorem getArchiver_absent_ok_and_error_iff_exec_failure_witness :
    (GetArchiver false ⟨⟨[], 1⟩, 0⟩ 7).1 = Except.ok none :=
  getArchiver_absent_ok_and_error_iff_exec_failure.1 ⟨⟨[], 1⟩, 0⟩ 7 (by simp)

/-- C4: `RemoveArchiver` succeeds silently when the delete matches zero rows,
leaving the store unchanged; it raises `RepositoryError` exactly when the
delete statement itself fails to execute; and its outcome never depends on
the store or on which archiver is passed — in particular it never inspects
the affected-row count. -/
theorem removeArchiver_zero_rows_silent_error_iff_exec_failure :
    (∀ (w : SpiWorld) (a : AutoFailoverArchiver),
      (∀ r ∈ w.store.rows, r.nodeid ≠ toInt32 a.nodeId) →
      (RemoveArchiver false w a).1 = Except.ok () ∧
      (RemoveArchiver false w a).2.store = w.store) ∧
    (∀ (execFails : Bool) (w : SpiWorld) (a : AutoFailoverArchiver),
      (RemoveArchiver execFails w a).1 =
          Except.error PgError.repositoryError ↔
        execFails = true) ∧
    (∀ (execFails : Bool) (w w' : SpiWorld) (a a' : AutoFailoverArchiver),
      (RemoveArchiver execFails w a).1 = (RemoveArchiver execFails w' a').1) := by
  refine ⟨?_, ?_, ?_⟩
  · intro w a hnone
    have hkeep :
        w.store.rows.filter (fun r => !(r.nodeid == toInt32 a.nodeId)) =
          w.store.rows := by
      rw [List.filter_eq_self]
      intro r hr
      simpa using hnone r hr
    constructor
    · rfl
    · show (⟨⟨_, w.store.nextSeq⟩, _⟩ : SpiWorld).store = w.store
      rw [hkeep]
  · intro execFails w a
    cases execFails
    · simp [RemoveArchiver]
    · simp [RemoveArchiver]
  · intro execFails w w' a a'
    cases execFails
    · rfl
    · rfl

/-- C4 witness: removing an archiver whose identifier matches no row of a
one-row store succeeds and leaves the store unchanged. -/
theorem removeArchiver_zero_rows_silent_witness :
    (RemoveArchiver false ⟨⟨[⟨3, "a", "h"⟩], 4⟩, 0⟩ ⟨7, "n", "h2"⟩).1 =
        Except.ok () ∧
    (RemoveArchiver false ⟨⟨[⟨3, "a", "h"⟩], 4⟩, 0⟩ ⟨7, "n", "h2"⟩).2.store =
        ⟨[⟨3, "a", "h"⟩], 4⟩ :=
  removeArchiver_zero_rows_silent_error_iff_exec_failure.1
    ⟨⟨[⟨3, "a", "h"⟩], 4⟩, 0⟩ ⟨7, "n", "h2"⟩ (by decide)

/-- C6: `AutoFailoverArchiverGetDatum` reports `InvalidArgument` for every
call with an absent archiver, whatever the expected shape, producing no
tuple; and for a present archiver it reports `SchemaMismatch` whenever the
declared result class is not the composite (row) type. -/
theorem archiverGetDatum_precondition_errors :
    (∀ shape : TypeFuncClass,
      AutoFailoverArchiverGetDatum none shape =
        Except.error PgError.invalidArgument) ∧
    (∀ (a : AutoFailoverArchiver) (shape : TypeFuncClass),
      shape ≠ TypeFuncClass.composite →
      AutoFailoverArchiverGetDatum (some a) shape =
        Except.error PgError.schemaMismatch) := by
  constructor
  · intro shape
    rfl
  · intro a shape hshape
    simp [AutoFailoverArchiverGetDatum, hshape]

/-- C6 witness: a present archiver with a scalar result class is rejected
with the schema-mismatch error. -/
theorem archiverGetDatum_precondition_errors_witness :
    AutoFailoverArchiverGetDatum (some ⟨1, "a", "h"⟩) TypeFuncClass.scalar =
      Except.error PgError.schemaMismatch :=
  archiverGetDatum_precondition_errors.2 ⟨1, "a", "h"⟩ TypeFuncClass.scalar
    (by decide)

/-- C7: for every present archiver record marshalled with the composite
result class, `AutoFailoverArchiverGetDatum` produces a tuple with exactly 3
fields in the fixed order `nodeId` (the 32-bit datum the code forms from the
record field), `nodeName`, `nodeHost`, with every null flag false. -/
theorem archiverGetDatum_three_fields_not_null (a : AutoFailoverArchiver) :
    AutoFailoverArchiverGetDatum (some a) TypeFuncClass.composite =
      Except.ok [(PgDatum.intDatum (toInt32 a.nodeId), false),
                 (PgDatum.textDatum a.nodeName, false),
                 (PgDatum.textDatum a.nodeHost, false)] ∧
    (∀ t, AutoFailoverArchiverGetDatum (some a) TypeFuncClass.composite =
        Except.ok t →
      t.length = 3 ∧ ∀ fld ∈ t, fld.2 = false) := by
  constructor
  · rfl
  · intro t ht
    have key : AutoFailoverArchiverGetDatum (some a) TypeFuncClass.composite =
        Except.ok [(PgDatum.intDatum (toInt32 a.nodeId), false),
                   (PgDatum.textDatum a.nodeName, false),
                   (PgDatum.textDatum a.nodeHost, false)] := rfl
    rw [key] at ht
    have hts :
        t = [(PgDatum.intDatum (toInt32 a.nodeId), false),
             (PgDatum.textDatum a.nodeName, false),
             (PgDatum.textDatum a.nodeHost, false)] := by
      simpa using ht.symm
    subst hts
    refine ⟨rfl, ?_⟩
    intro fld hfld
    simp at hfld
    rcases hfld with h | h | h <;> rw [h]

/-- C7 witness: the tuple marshalled from the record (7, n, h) has 3 fields
and no null flag set. -/
theorem archiverGetDatum_three_fields_not_null_witness :
    ([(PgDatum.intDatum (toInt32 7), false),
      (PgDatum.textDatum "n", false),
      (PgDatum.textDatum "h", false)] : List (PgDatum × Bool)).length = 3 ∧
    ∀ fld ∈ ([(PgDatum.intDatum (toInt32 7), false),
              (PgDatum.textDatum "n", false),
              (PgDatum.textDatum "h", false)] : List (PgDatum × Bool)),
      fld.2 = false :=
  (archiverGetDatum_three_fields_not_null ⟨7, "n", "h"⟩).2 _ rfl

/-- C8 (bug exhibit): the 64-bit identifier is not preserved across the
public interface.  At `nodeId` 2147483648 = 2^31 the marshaler places the
32-bit datum -2147483648 in the output tuple, and `RemoveArchiver`, passing
the identifier as a 32-bit parameter, deletes nothing — the very row whose
record was passed in survives the delete. -/
theorem nodeId_truncated_to_32_bits :
    AutoFailoverArchiverGetDatum
        (some ⟨2147483648, "archiver_2147483648", "host"⟩)
        TypeFuncClass.composite =
      Except.ok [(PgDatum.intDatum (-2147483648), false),
                 (PgDatum.textDatum "archiver_2147483648", false),
                 (PgDatum.textDatum "host", false)] ∧
    (RemoveArchiver false
        ⟨⟨[⟨2147483648, "archiver_2147483648", "host"⟩], 2147483649⟩, 0⟩
        ⟨2147483648, "archiver_2147483648", "host"⟩).2.store.rows =
      [⟨2147483648, "archiver_2147483648", "host"⟩] := by
  constructor
  · rfl
  · rfl

/-- C9: starting with no SPI session held, each repository operation —
`GetArchiver`, `AddArchiver`, `RemoveArchiver` — ends with no session held on
every exit path: the success path pairs `SPI_connect` with `SPI_finish`, and
the error path raises through the transaction abort, which releases the SPI
sessions of the operation. -/
theorem operations_release_spi_sessions
    (execFails : Bool) (w : SpiWorld) (nodeId : Int)
    (nodeName nodeHost : Option String) (a : AutoFailoverArchiver)
    (h : w.spiConnected = 0) :
    (GetArchiver execFails w nodeId).2.spiConnected = 0 ∧
    (AddArchiver execFails w nodeName nodeHost).2.spiConnected = 0 ∧
    (RemoveArchiver execFails w a).2.spiConnected = 0 := by
  cases execFails <;> cases nodeHost <;>
    simp [GetArchiver, AddArchiver, RemoveArchiver, runInsertStatement,
      addArchiverHandleSpi, h]

/-- C9 witness: the three operations at a concrete world holding no session. -/
theorem operations_release_spi_sessions_witness :
    (GetArchiver false ⟨⟨[], 1⟩, 0⟩ 7).2.spiConnected = 0 ∧
    (AddArchiver false ⟨⟨[], 1⟩, 0⟩ none (some "h")).2.spiConnected = 0 ∧
    (RemoveArchiver false ⟨⟨[], 1⟩, 0⟩ ⟨7, "n", "h"⟩).2.spiConnected = 0 :=
  operations_release_spi_sessions false ⟨⟨[], 1⟩, 0⟩ 7 none (some "h")
    ⟨7, "n", "h"⟩ rfl

/-- C10: the null-archiver check precedes the result-shape check: when the
archiver is absent and the expected shape is also not composite, the error
reported is `InvalidArgument`, never `SchemaMismatch`. -/
theorem archiverGetDatum_null_check_precedes_shape_check
    (shape : TypeFuncClass) (h : shape ≠ TypeFuncClass.composite) :
    AutoFailoverArchiverGetDatum none shape =
      Except.error PgError.invalidArgument ∧
    AutoFailoverArchiverGetDatum none shape ≠
      Except.error PgError.schemaMismatch := by
  constructor
  · rfl
  · intro hcontra
    have key : AutoFailoverArchiverGetDatum none shape =
        Except.error PgError.invalidArgument := rfl
    rw [key] at hcontra
    simp at hcontra

/-- C10 witness: with an absent archiver and the scalar (non-composite)
shape the reported error is the invalid-argument one. -/
theorem archiverGetDatum_null_check_precedes_shape_check_witness :
    AutoFailoverArchiverGetDatum none TypeFuncClass.scalar =
      Except.error PgError.invalidArgument ∧
    AutoFailoverArchiverGetDatum none TypeFuncClass.scalar ≠
      Except.error PgError.schemaMismatch :=
  archiverGetDatum_null_check_precedes_shape_check TypeFuncClass.scalar
    (by decide)

end ArchiverMetadata
